import Mathlib

set_option autoImplicit false

/-!
Verification of the FaaS control plane (operator + scale-to-zero gateway).

Shallow embedding of `src/operator/main.py` and `src/gateway/main.py`:
pure helpers become Lean functions; calls against the Kubernetes API are
modelled by explicit environments that fix each call's outcome; Python
exceptions become `Except` values.  Message strings of exceptions are
elided (only their class and status/delay fields matter to the spec).
-/

namespace Faas

/-! ## Python string helpers

`str.strip()` as used by `validate_spec` (src/operator/main.py:72-76).
Python strips Unicode whitespace; the ASCII whitespace set suffices here. -/

/-- Python's default whitespace set (ASCII part): space, \t, \n, \r, \v, \f. -/
def pyIsSpace (c : Char) : Bool :=
  c = ' ' || c = '\t' || c = '\n' || c = '\r' || c.toNat = 11 || c.toNat = 12

/-- Python `s.strip()`: drop leading and trailing whitespace. -/
def pyStrip (s : String) : String :=
  String.mk (((s.toList.dropWhile pyIsSpace).reverse.dropWhile pyIsSpace).reverse)

/-! ## Spec field values

A `Function` spec arrives as parsed YAML/JSON; the validator inspects the
runtime type of each field (`isinstance` checks in src/operator/main.py:62-88).
We model the scalar values that can appear in the four checked fields. -/

/-- A scalar spec-field value: a string or an integer. -/
inductive JVal where
  | str (s : String)
  | int (n : Int)
deriving DecidableEq, Repr

/-- The four fields of a Function spec read by the operator
(`spec.get(...)` in src/operator/main.py:67-70); `none` = key absent. -/
structure FnSpec where
  code : Option JVal
  runtime : Option JVal
  minReplicas : Option JVal
  maxReplicas : Option JVal
deriving DecidableEq, Repr

/-- Error taxonomy of the operator: `kopf.PermanentError`,
`kopf.TemporaryError(delay)`, or a raw `ApiException(status)` that escapes
uncaught (possible only in `upsert_hpa`, whose create call is unprotected). -/
inductive OpError where
  | permanent
  | temporary (delay : Nat)
  | apiException (status : Nat)
deriving DecidableEq, Repr

/-- `isinstance(v, str) and v.strip()` — the non-blank-string test of
src/operator/main.py:72 and :75. -/
def isNonBlankStr : Option JVal → Bool
  | some (.str t) => !(pyStrip t == "")
  | _ => false

/-- `isinstance(v, int) and v >= b` — the integer lower-bound test of
src/operator/main.py:81 and :84. -/
def isIntGe : JVal → Int → Bool
  | .int n, b => decide (b ≤ n)
  | .str _, _ => false

/-- Python `a > b` on the two replica fields (both are ints whenever this
comparison is reached, src/operator/main.py:87). -/
def jGt : JVal → JVal → Bool
  | .int a, .int b => decide (b < a)
  | _, _ => false

/-- `validate_spec` (src/operator/main.py:62-88): every rejection raises
`kopf.PermanentError`; the checks run in source order. -/
def validate_spec (s : FnSpec) : Except OpError Unit :=
  let code := s.code
  let runtime := s.runtime
  let min_replicas := s.minReplicas.getD (.int 0)
  let max_replicas := s.maxReplicas
  if !(isNonBlankStr code) then .error .permanent
  else if !(isNonBlankStr runtime) then .error .permanent
  else if max_replicas.isNone then .error .permanent
  else if !(isIntGe min_replicas 0) then .error .permanent
  else if !(isIntGe (max_replicas.getD (.int 0)) 1) then .error .permanent
  else if jGt min_replicas (max_replicas.getD (.int 0)) then .error .permanent
  else .ok ()

/-! ## Naming resolver -/

/-- Python `s.lower()` (ASCII case folding, character-wise). -/
def pyLower (s : String) : String :=
  String.mk (s.toList.map Char.toLower)

/-- Result of `get_resource_names` (src/operator/main.py:50-59). -/
structure ResourceNames where
  deployment : String
  service : String
  configmap : String
deriving DecidableEq, Repr

/-- `get_resource_names` (src/operator/main.py:50-59). -/
def get_resource_names (fn_name : String) : ResourceNames :=
  let safe_name := pyLower fn_name
  { deployment := "fn-" ++ safe_name ++ "-deploy"
    service := "fn-" ++ safe_name ++ "-svc"
    configmap := "fn-" ++ safe_name ++ "-code" }

/-- Gateway-side `_deployment_name_from_function` (src/gateway/main.py:46-48). -/
def deployment_name_from_function (fn_name : String) : String :=
  "fn-" ++ pyLower fn_name ++ "-deploy"

/-- Gateway-side `_service_name_from_function` (src/gateway/main.py:51-53). -/
def service_name_from_function (fn_name : String) : String :=
  "fn-" ++ pyLower fn_name ++ "-svc"

/-! ## Upsert engine (src/operator/main.py:270-469)

Each upsert does `try: read; patch except ApiException e: if e.status == 404:
create else: TemporaryError(delay=30)`.  The Kubernetes API is modelled by an
`UpsertEnv` fixing the outcome of each of the three possible calls; the
returned trace lists the calls actually issued, in order. -/

/-- Outcome of one Kubernetes API call: success, or `ApiException(status)`. -/
inductive ApiOutcome where
  | ok
  | apiErr (status : Nat)
deriving DecidableEq, Repr

/-- Outcomes the API would give to the read / patch / create calls of one
upsert, if issued. -/
structure UpsertEnv where
  read : ApiOutcome
  patch : ApiOutcome
  create : ApiOutcome
deriving DecidableEq, Repr

/-- Which API calls an upsert issued. -/
inductive ApiCall where
  | read
  | patch
  | create
deriving DecidableEq, Repr

/-- An `UpsertEnv` in which every call succeeds. -/
def allOkUpsert : UpsertEnv := { read := .ok, patch := .ok, create := .ok }

/-- `upsert_configmap` (src/operator/main.py:270-309).  The single `except
ApiException` clause catches a 404 coming from the read *or* from the patch;
either takes the create branch.  A failing create raises
`TemporaryError(delay=30)`; any other read/patch failure raises
`TemporaryError(delay=30)`. -/
def upsert_configmap (env : UpsertEnv) (name : String) :
    Except OpError String × List ApiCall :=
  match env.read with
  | .apiErr st =>
      if st = 404 then
        match env.create with
        | .ok => (.ok name, [.read, .create])
        | .apiErr _ => (.error (.temporary 30), [.read, .create])
      else (.error (.temporary 30), [.read])
  | .ok =>
      match env.patch with
      | .ok => (.ok name, [.read, .patch])
      | .apiErr st =>
          if st = 404 then
            match env.create with
            | .ok => (.ok name, [.read, .patch, .create])
            | .apiErr _ => (.error (.temporary 30), [.read, .patch, .create])
          else (.error (.temporary 30), [.read, .patch])

/-- `upsert_deployment` (src/operator/main.py:312-350); same control flow as
`upsert_configmap` against the apps API. -/
def upsert_deployment (env : UpsertEnv) (name : String) :
    Except OpError String × List ApiCall :=
  match env.read with
  | .apiErr st =>
      if st = 404 then
        match env.create with
        | .ok => (.ok name, [.read, .create])
        | .apiErr _ => (.error (.temporary 30), [.read, .create])
      else (.error (.temporary 30), [.read])
  | .ok =>
      match env.patch with
      | .ok => (.ok name, [.read, .patch])
      | .apiErr st =>
          if st = 404 then
            match env.create with
            | .ok => (.ok name, [.read, .patch, .create])
            | .apiErr _ => (.error (.temporary 30), [.read, .patch, .create])
          else (.error (.temporary 30), [.read, .patch])

/-- `upsert_service` (src/operator/main.py:353-396); same control flow (the
clusterIP copy between read and patch only edits the body, not the flow). -/
def upsert_service (env : UpsertEnv) (name : String) :
    Except OpError String × List ApiCall :=
  match env.read with
  | .apiErr st =>
      if st = 404 then
        match env.create with
        | .ok => (.ok name, [.read, .create])
        | .apiErr _ => (.error (.temporary 30), [.read, .create])
      else (.error (.temporary 30), [.read])
  | .ok =>
      match env.patch with
      | .ok => (.ok name, [.read, .patch])
      | .apiErr st =>
          if st = 404 then
            match env.create with
            | .ok => (.ok name, [.read, .patch, .create])
            | .apiErr _ => (.error (.temporary 30), [.read, .patch, .create])
          else (.error (.temporary 30), [.read, .patch])

/-- `upsert_hpa` (src/operator/main.py:454-469): same read/patch/404/create
flow, but its create call is *not* wrapped in an inner try, so an
`ApiException` from create propagates raw. -/
def upsert_hpa (env : UpsertEnv) (name : String) :
    Except OpError String × List ApiCall :=
  match env.read with
  | .apiErr st =>
      if st = 404 then
        match env.create with
        | .ok => (.ok name, [.read, .create])
        | .apiErr st2 => (.error (.apiException st2), [.read, .create])
      else (.error (.temporary 30), [.read])
  | .ok =>
      match env.patch with
      | .ok => (.ok name, [.read, .patch])
      | .apiErr st =>
          if st = 404 then
            match env.create with
            | .ok => (.ok name, [.read, .patch, .create])
            | .apiErr st2 => (.error (.apiException st2), [.read, .patch, .create])
          else (.error (.temporary 30), [.read, .patch])

/-! ## HPA body and reconcile (src/operator/main.py:398-452, 471-572) -/

/-- The fields of the `V2HorizontalPodAutoscaler` built by `build_hpa_body`
that the spec constrains (src/operator/main.py:398-452). -/
structure HpaBody where
  name : String
  min_replicas : Int
  max_replicas : Int
  target_kind : String
  target_name : String
  metric_resource : String
  target_type : String
  average_utilization : Int
deriving DecidableEq, Repr

/-- `spec.get(key, default)` specialised to an integer-valued field.  (In
`build_hpa_body` and the HPA gate these lookups are only reached after
`validate_spec` has ensured the fields are ints when present.) -/
def jGetIntD (v : Option JVal) (d : Int) : Int :=
  match v with
  | some (.int n) => n
  | _ => d

/-- `build_hpa_body` (src/operator/main.py:398-452): bounds
`[max(1, spec.get("minReplicas", 1)), spec.get("maxReplicas", 3)]`, targeting
the Deployment, CPU utilization target 50. -/
def build_hpa_body (name : String) (spec : FnSpec) (deploy_name : String) : HpaBody :=
  { name := name
    min_replicas := max 1 (jGetIntD spec.minReplicas 1)
    max_replicas := jGetIntD spec.maxReplicas 3
    target_kind := "Deployment"
    target_name := deploy_name
    metric_resource := "cpu"
    target_type := "Utilization"
    average_utilization := 50 }

/-- The status fields written by `update_status` (src/operator/main.py:471-490).
A `none` field means the key is absent (never written). -/
structure FnStatus where
  phase : Option String
  reason : Option String
  deploymentName : Option String
  serviceName : Option String
  observedGeneration : Option Int
deriving DecidableEq, Repr

/-- `update_status` (src/operator/main.py:471-490): always writes phase,
reason, deploymentName, serviceName; writes observedGeneration only when the
generation argument is not None.  `patch.setdefault("status", {})` starts from
the previous content of the patch when present. -/
def update_status (patch : Option FnStatus) (phase : String) (reason : Option String)
    (deployment_name : Option String) (service_name : Option String)
    (generation : Option Int) : Option FnStatus :=
  let status := patch.getD
    { phase := none, reason := none, deploymentName := none
      serviceName := none, observedGeneration := none }
  some { phase := some phase
         reason := reason
         deploymentName := deployment_name
         serviceName := service_name
         observedGeneration := if generation.isSome then generation else status.observedGeneration }

/-- Identity and metadata of one Function resource as seen by a handler. -/
structure FnMeta where
  name : String
  namespc : String
  generation : Option Int
deriving DecidableEq, Repr

/-- Which derived object an API call in the reconcile trace belongs to. -/
inductive ObjKind where
  | configmap
  | deployment
  | service
  | hpa
deriving DecidableEq, Repr

/-- API outcomes for the four upserts a reconcile pass may perform. -/
structure ReconcileEnv where
  cm : UpsertEnv
  deploy : UpsertEnv
  svc : UpsertEnv
  hpa : UpsertEnv
deriving DecidableEq, Repr

/-- A `ReconcileEnv` in which every API call succeeds. -/
def allOkEnv : ReconcileEnv :=
  { cm := allOkUpsert, deploy := allOkUpsert, svc := allOkUpsert, hpa := allOkUpsert }

/-- The dict returned by `reconcile_function` on success
(src/operator/main.py:568-572). -/
structure ReconcileOk where
  deploymentName : String
  serviceName : String
  phase : String
deriving DecidableEq, Repr

/-- Everything observable about one reconcile pass: its result, the status
patch after the pass, the API calls issued, and the HPA body upserted (if
the gate fired and execution reached step 4). -/
structure ReconcileResult where
  result : Except OpError ReconcileOk
  patch : Option FnStatus
  calls : List (ObjKind × ApiCall)
  hpaUpserted : Option HpaBody
deriving Repr

/-- Tag an upsert's call list with its object kind. -/
def tagCalls (k : ObjKind) (cs : List ApiCall) : List (ObjKind × ApiCall) :=
  cs.map (fun c => (k, c))

/-- `reconcile_function` (src/operator/main.py:493-572): validate, then upsert
ConfigMap, Deployment, Service in order; upsert the HPA iff
`spec.get("maxReplicas", 1) > 1 and spec.get("minReplicas", 0) >= 1`
(src/operator/main.py:538); finally `update_status(phase="Ready", reason=None,
..., generation=body.metadata.generation)`.  Any raised error aborts the pass
at that point, leaving the status patch untouched. -/
def reconcile_function (meta : FnMeta) (spec : FnSpec) (env : ReconcileEnv)
    (patch : Option FnStatus) : ReconcileResult :=
  match validate_spec spec with
  | .error e => { result := .error e, patch := patch, calls := [], hpaUpserted := none }
  | .ok _ =>
    let names := get_resource_names meta.name
    let cmR := upsert_configmap env.cm names.configmap
    match cmR.1 with
    | .error e =>
        { result := .error e, patch := patch
          calls := tagCalls .configmap cmR.2, hpaUpserted := none }
    | .ok _cm_name =>
      let depR := upsert_deployment env.deploy names.deployment
      match depR.1 with
      | .error e =>
          { result := .error e, patch := patch
            calls := tagCalls .configmap cmR.2 ++ tagCalls .deployment depR.2
            hpaUpserted := none }
      | .ok deploy_name =>
        let svcR := upsert_service env.svc names.service
        match svcR.1 with
        | .error e =>
            { result := .error e, patch := patch
              calls := tagCalls .configmap cmR.2 ++ tagCalls .deployment depR.2 ++
                tagCalls .service svcR.2
              hpaUpserted := none }
        | .ok svc_name =>
          let baseCalls := tagCalls .configmap cmR.2 ++ tagCalls .deployment depR.2 ++
            tagCalls .service svcR.2
          if jGetIntD spec.maxReplicas 1 > 1 ∧ jGetIntD spec.minReplicas 0 ≥ 1 then
            let hpa_body := build_hpa_body (names.deployment ++ "-hpa") spec deploy_name
            let hpaR := upsert_hpa env.hpa hpa_body.name
            match hpaR.1 with
            | .error e =>
                { result := .error e, patch := patch
                  calls := baseCalls ++ tagCalls .hpa hpaR.2, hpaUpserted := none }
            | .ok _ =>
                { result := .ok { deploymentName := deploy_name, serviceName := svc_name
                                  phase := "Ready" }
                  patch := update_status patch "Ready" none (some deploy_name)
                    (some svc_name) meta.generation
                  calls := baseCalls ++ tagCalls .hpa hpaR.2
                  hpaUpserted := some hpa_body }
          else
            { result := .ok { deploymentName := deploy_name, serviceName := svc_name
                              phase := "Ready" }
              patch := update_status patch "Ready" none (some deploy_name)
                (some svc_name) meta.generation
              calls := baseCalls
              hpaUpserted := none }

end Faas

namespace Faas

/-! ## Claim C9: the gateway's derived names coincide with the operator's. -/

/-- C9: for every function name, the gateway's deployment/service name
derivations agree with the operator's naming resolver `get_resource_names`:
both produce `fn-{lowercased name}-deploy` and `fn-{lowercased name}-svc`. -/
theorem gateway_operator_names_agree (fn_name : String) :
    deployment_name_from_function fn_name = (get_resource_names fn_name).deployment ∧
    service_name_from_function fn_name = (get_resource_names fn_name).service := by
  exact ⟨rfl, rfl⟩

/-! ## Claim C2: what happens on a 404 from patch -/

/-- Does an upsert result carry `TemporaryError(delay=30)`? -/
def isTemp30 : Except OpError String → Bool
  | .error (.temporary 30) => true
  | _ => false

/-- C2 counterexample: with a successful read, a patch failing 404 (object
deleted between read and patch) and a successful create, `upsert_configmap`
issues the create call and returns success — the patch 404 is treated as the
create branch and no retryable failure is surfaced, contrary to the claim. -/
theorem upsert_patch404_counterexample :
    (upsert_configmap { read := .ok, patch := .apiErr 404, create := .ok } "cm").1
      = .ok "cm" ∧
    (upsert_configmap { read := .ok, patch := .apiErr 404, create := .ok } "cm").2
      = [.read, .patch, .create] ∧
    isTemp30 (upsert_configmap { read := .ok, patch := .apiErr 404, create := .ok } "cm").1
      = false := by
  exact ⟨rfl, rfl, rfl⟩

/-- C2 (amended): in each of the three upserts, a 404 raised by the patch
after a successful read is caught by the same `except` clause as a read 404
and takes the create branch, recreating the object; the call succeeds iff
that create succeeds, and only a failure of that create surfaces the
retryable `TemporaryError(delay=30)`. -/
theorem upsert_patch404_takes_create_branch (c : ApiOutcome) (name : String) :
    ((upsert_configmap { read := .ok, patch := .apiErr 404, create := c } name).2
       = [.read, .patch, .create] ∧
     ((upsert_configmap { read := .ok, patch := .apiErr 404, create := c } name).1
       = .ok name ↔ c = .ok) ∧
     (isTemp30 (upsert_configmap { read := .ok, patch := .apiErr 404, create := c } name).1
       = true ↔ c ≠ .ok)) ∧
    ((upsert_deployment { read := .ok, patch := .apiErr 404, create := c } name).2
       = [.read, .patch, .create] ∧
     ((upsert_deployment { read := .ok, patch := .apiErr 404, create := c } name).1
       = .ok name ↔ c = .ok) ∧
     (isTemp30 (upsert_deployment { read := .ok, patch := .apiErr 404, create := c } name).1
       = true ↔ c ≠ .ok)) ∧
    ((upsert_service { read := .ok, patch := .apiErr 404, create := c } name).2
       = [.read, .patch, .create] ∧
     ((upsert_service { read := .ok, patch := .apiErr 404, create := c } name).1
       = .ok name ↔ c = .ok) ∧
     (isTemp30 (upsert_service { read := .ok, patch := .apiErr 404, create := c } name).1
       = true ↔ c ≠ .ok)) := by
  cases c <;>
    simp [upsert_configmap, upsert_deployment, upsert_service, isTemp30]

/-! ## Claim C10: whitespace-only code/runtime is rejected -/

lemma pyStrip_eq_empty_of_all_space (t : String)
    (h : t.toList.all pyIsSpace = true) : pyStrip t = "" := by
  unfold pyStrip
  have h1 : t.toList.dropWhile pyIsSpace = [] := by
    rw [List.dropWhile_eq_nil_iff]
    exact fun x hx => List.all_eq_true.mp h x hx
  rw [h1]
  rfl

/-- C10: a spec whose `code` or `runtime` is a non-empty, whitespace-only
string is rejected with a `PermanentError`, because the validator's
non-emptiness check strips whitespace first (`not code.strip()`,
src/operator/main.py:72 and :75). -/
theorem blank_code_or_runtime_rejected (s : FnSpec) (t : String)
    (_hne : t ≠ "") (hsp : t.toList.all pyIsSpace = true) :
    (s.code = some (.str t) → validate_spec s = .error .permanent) ∧
    (s.runtime = some (.str t) → validate_spec s = .error .permanent) := by
  have hstrip : pyStrip t = "" := pyStrip_eq_empty_of_all_space t hsp
  constructor
  · intro hc
    simp [validate_spec, hc, isNonBlankStr, hstrip]
  · intro hr
    by_cases hcode : isNonBlankStr s.code = true
    · simp [validate_spec, hcode, hr, isNonBlankStr, hstrip]
    · simp only [Bool.not_eq_true] at hcode
      simp [validate_spec, hcode]

/-! ## Claim C5: validation rejects exactly the invalid specs, permanently -/

/-- Does an operator computation end in `kopf.PermanentError`? -/
def isPermFail {α : Type} : Except OpError α → Bool
  | .error .permanent => true
  | _ => false

/-- Field is absent or a string (not an integer-typed value); the claim's
phrasing "code missing or empty" presumes the code/runtime fields are not
integer-typed. -/
def strOrAbsent : Option JVal → Bool
  | some (.int _) => false
  | _ => true

/-- Field holds a string that is empty after stripping whitespace. -/
def blankStr : Option JVal → Bool
  | some (.str t) => pyStrip t == ""
  | _ => false

/-- The claim's list of invalid-spec conditions: code missing or empty,
runtime missing or empty, maxReplicas absent or not an integer ≥ 1,
minReplicas (when present, default 0) not an integer ≥ 0, or
minReplicas > maxReplicas.  "Empty" is read as empty after stripping
whitespace, the reading the implementation (and claim C10) give it. -/
def specInvalid (s : FnSpec) : Bool :=
  (s.code.isNone || blankStr s.code) ||
  (s.runtime.isNone || blankStr s.runtime) ||
  (match s.maxReplicas with
   | some (.int n) => decide (n < 1)
   | _ => true) ||
  (match s.minReplicas with
   | none => false
   | some (.int n) => decide (n < 0)
   | some (.str _) => true) ||
  (match s.minReplicas, s.maxReplicas with
   | some (.int m), some (.int mx) => decide (mx < m)
   | _, _ => false)

lemma validate_spec_eq_ok_iff (s : FnSpec) :
    validate_spec s = .ok () ↔
      (isNonBlankStr s.code = true ∧ isNonBlankStr s.runtime = true ∧
       s.maxReplicas.isSome = true ∧
       isIntGe (s.minReplicas.getD (.int 0)) 0 = true ∧
       isIntGe (s.maxReplicas.getD (.int 0)) 1 = true ∧
       jGt (s.minReplicas.getD (.int 0)) (s.maxReplicas.getD (.int 0)) = false) := by
  simp only [validate_spec]
  split_ifs <;> simp_all [Option.isSome_iff_ne_none]

lemma validate_spec_cases (s : FnSpec) :
    validate_spec s = .ok () ∨ validate_spec s = .error .permanent := by
  simp only [validate_spec]
  split_ifs <;> simp

lemma specInvalid_false_iff (s : FnSpec)
    (hc : strOrAbsent s.code = true) (hr : strOrAbsent s.runtime = true) :
    specInvalid s = false ↔
      (isNonBlankStr s.code = true ∧ isNonBlankStr s.runtime = true ∧
       s.maxReplicas.isSome = true ∧
       isIntGe (s.minReplicas.getD (.int 0)) 0 = true ∧
       isIntGe (s.maxReplicas.getD (.int 0)) 1 = true ∧
       jGt (s.minReplicas.getD (.int 0)) (s.maxReplicas.getD (.int 0)) = false) := by
  rcases s with ⟨c, r, mn, mx⟩
  rcases c with _ | (t | k)
  · simp [specInvalid, isNonBlankStr]
  · rcases r with _ | (u | k2)
    · simp [specInvalid, isNonBlankStr]
    · rcases mn with _ | (v | m) <;> rcases mx with _ | (w | mx2) <;>
        by_cases h1 : pyStrip t = "" <;> by_cases h2 : pyStrip u = "" <;>
          simp [specInvalid, isNonBlankStr, blankStr, isIntGe, jGt, beq_iff_eq,
            h1, h2] <;>
          omega
    · simp [strOrAbsent] at hr
  · simp [strOrAbsent] at hc

/-- Invalid spec: `minReplicas = 2 > maxReplicas = 1`, otherwise valid. -/
def specMin2Max1 : FnSpec :=
  { code := some (.str "def main(): return 1"), runtime := some (.str "python3.9")
    minReplicas := some (.int 2), maxReplicas := some (.int 1) }

/-- Invalid spec: `code = ""`, otherwise valid. -/
def specEmptyCode : FnSpec :=
  { code := some (.str ""), runtime := some (.str "python3.9")
    minReplicas := some (.int 0), maxReplicas := some (.int 1) }

/-- Invalid spec: `maxReplicas` absent, otherwise valid. -/
def specNoMax : FnSpec :=
  { code := some (.str "def main(): return 1"), runtime := some (.str "python3.9")
    minReplicas := some (.int 0), maxReplicas := none }

/-- C5: for specs whose code/runtime fields are strings when present,
validation fails — always with `kopf.PermanentError` — exactly on the claim's
invalidity conditions, and a reconcile pass over an invalid spec performs no
upsert API call, leaves the status patch untouched, and reports the permanent
failure.  In particular the specs `minReplicas=2/maxReplicas=1`, `code=""`
and `maxReplicas` absent are each rejected this way. -/
theorem validate_spec_permanent_iff (s : FnSpec) (meta : FnMeta) (env : ReconcileEnv)
    (p : Option FnStatus)
    (hc : strOrAbsent s.code = true) (hr : strOrAbsent s.runtime = true) :
    (isPermFail (validate_spec s) = specInvalid s) ∧
    (specInvalid s = true →
      (reconcile_function meta s env p).calls = [] ∧
      (reconcile_function meta s env p).patch = p ∧
      isPermFail (reconcile_function meta s env p).result = true) ∧
    (isPermFail (validate_spec specMin2Max1) = true ∧
      (reconcile_function meta specMin2Max1 env p).calls = []) ∧
    (isPermFail (validate_spec specEmptyCode) = true ∧
      (reconcile_function meta specEmptyCode env p).calls = []) ∧
    (isPermFail (validate_spec specNoMax) = true ∧
      (reconcile_function meta specNoMax env p).calls = []) := by
  have key : ∀ q : FnSpec, validate_spec q = .error .permanent →
      (reconcile_function meta q env p).calls = [] ∧
      (reconcile_function meta q env p).patch = p ∧
      isPermFail (reconcile_function meta q env p).result = true := by
    intro q hq
    simp [reconcile_function, hq, isPermFail]
  have hmain : isPermFail (validate_spec s) = specInvalid s := by
    rcases validate_spec_cases s with hok | herr
    · have h1 := (validate_spec_eq_ok_iff s).mp hok
      have h2 := (specInvalid_false_iff s hc hr).mpr h1
      rw [hok, h2]
      rfl
    · have h1 : validate_spec s ≠ .ok () := by simp [herr]
      have h2 : ¬ (specInvalid s = false) := by
        intro hfalse
        exact h1 ((validate_spec_eq_ok_iff s).mpr
          ((specInvalid_false_iff s hc hr).mp hfalse))
      rw [herr, Bool.not_eq_false] at *
      simp [isPermFail, h2]
  refine ⟨hmain, ?_, ?_, ?_, ?_⟩
  · intro hinv
    have herr : validate_spec s = .error .permanent := by
      rcases validate_spec_cases s with hok | herr
      · exfalso
        have := (specInvalid_false_iff s hc hr).mpr ((validate_spec_eq_ok_iff s).mp hok)
        rw [this] at hinv
        exact Bool.false_ne_true hinv
      · exact herr
    exact key s herr
  · exact ⟨by decide, (key specMin2Max1 rfl).1⟩
  · exact ⟨by decide, (key specEmptyCode rfl).1⟩
  · exact ⟨by decide, (key specNoMax rfl).1⟩

/-- C5 witness: the typing hypotheses hold and the conclusion follows at the
concrete spec `minReplicas=2, maxReplicas=1` (with trivial metadata, an
all-succeeding API and an empty status patch). -/
theorem validate_spec_permanent_iff_witness :
    strOrAbsent specMin2Max1.code = true ∧ strOrAbsent specMin2Max1.runtime = true ∧
    isPermFail (validate_spec specMin2Max1) = specInvalid specMin2Max1 ∧
    (reconcile_function { name := "f", namespc := "default", generation := some 1 }
      specMin2Max1 allOkEnv none).calls = [] := by
  refine ⟨by decide, by decide, ?_, ?_⟩
  · exact (validate_spec_permanent_iff specMin2Max1
      { name := "f", namespc := "default", generation := some 1 } allOkEnv none
      (by decide) (by decide)).1
  · exact ((validate_spec_permanent_iff specMin2Max1
      { name := "f", namespc := "default", generation := some 1 } allOkEnv none
      (by decide) (by decide)).2.1 (by decide)).1

/-! ## Claim C4: HPA gating and shape -/

/-- A valid spec with `minReplicas = 1`, `maxReplicas = 5`. -/
def specMin1Max5 : FnSpec :=
  { code := some (.str "def main(): return 1"), runtime := some (.str "python3.9")
    minReplicas := some (.int 1), maxReplicas := some (.int 5) }

/-- C4: in a reconcile pass over a validated spec whose API calls succeed, an
Autoscaler is upserted iff `maxReplicas > 1` and `minReplicas ≥ 1`
(`minReplicas` defaulting to 0 when absent), and the HPA body built has
replica bounds `[max(1, minReplicas), maxReplicas]`, targets the function's
Deployment, and uses a CPU-utilization metric with target 50%. -/
theorem reconcile_hpa_gating (meta : FnMeta) (spec : FnSpec) (p : Option FnStatus)
    (hv : validate_spec spec = .ok ()) :
    ((reconcile_function meta spec allOkEnv p).hpaUpserted.isSome = true ↔
      (1 < jGetIntD spec.maxReplicas 1 ∧ 1 ≤ jGetIntD spec.minReplicas 0)) ∧
    (∀ b, (reconcile_function meta spec allOkEnv p).hpaUpserted = some b →
      b.min_replicas = max 1 (jGetIntD spec.minReplicas 0) ∧
      b.max_replicas = jGetIntD spec.maxReplicas 1 ∧
      b.target_kind = "Deployment" ∧
      b.target_name = (get_resource_names meta.name).deployment ∧
      b.metric_resource = "cpu" ∧
      b.target_type = "Utilization" ∧
      b.average_utilization = 50) := by
  have hok := (validate_spec_eq_ok_iff spec).mp hv
  have hmx : ∃ mxv : Int, spec.maxReplicas = some (.int mxv) ∧ 1 ≤ mxv := by
    rcases h : spec.maxReplicas with _ | (w | mxv)
    · rw [h] at hok
      simp at hok
    · rw [h] at hok
      simp [isIntGe] at hok
    · refine ⟨mxv, rfl, ?_⟩
      have := hok.2.2.2.2.1
      rw [h] at this
      simpa [isIntGe] using this
  rcases hmx with ⟨mxv, hmx, hmx1⟩
  simp only [reconcile_function, hv, allOkEnv, allOkUpsert, upsert_configmap,
    upsert_deployment, upsert_service, upsert_hpa]
  split_ifs with hgate
  · refine ⟨by simp [hgate], ?_⟩
    intro b hb
    simp only [Option.some.injEq] at hb
    subst hb
    have hmn : ∃ mnv : Int, spec.minReplicas = some (.int mnv) ∧ 1 ≤ mnv := by
      rcases h : spec.minReplicas with _ | (v | mnv)
      · rw [h] at hgate
        simp [jGetIntD] at hgate
      · rw [h] at hgate
        simp [jGetIntD] at hgate
      · exact ⟨mnv, rfl, by have := hgate.2; rwa [h] at this⟩
    rcases hmn with ⟨mnv, hmn, _⟩
    simp [build_hpa_body, jGetIntD, hmn, hmx]
  · simp only [Option.isSome_none]
    refine ⟨by simp [hgate], ?_⟩
    intro b hb
    simp at hb

/-- Concrete metadata of one Function resource, generation 7. -/
def metaF : FnMeta := { name := "f", namespc := "default", generation := some 7 }

/-- C4 witness: the spec `minReplicas=1, maxReplicas=5` validates, the pass
upserts an HPA (via the theorem's gating iff), and the HPA body realises
bounds `[1, 5]`, targets the Deployment, CPU utilization 50. -/
theorem reconcile_hpa_gating_witness :
    validate_spec specMin1Max5 = .ok () ∧
    (reconcile_function metaF specMin1Max5 allOkEnv none).hpaUpserted.isSome = true ∧
    (reconcile_function metaF specMin1Max5 allOkEnv none).hpaUpserted =
      some { name := "fn-f-deploy-hpa", min_replicas := 1, max_replicas := 5
             target_kind := "Deployment", target_name := "fn-f-deploy"
             metric_resource := "cpu", target_type := "Utilization"
             average_utilization := 50 } := by
  refine ⟨rfl, ?_, by decide⟩
  exact (reconcile_hpa_gating metaF specMin1Max5 none rfl).1.mpr (by decide)

/-! ## Claim C8: status is written only on full success -/

/-- C8: a reconcile pass leaves the status patch untouched whenever it ends
in a failure, and writes it exactly once on full success — with
`phase=Ready`, `reason=null`, the derived deployment and service names, and
`observedGeneration` equal to the input generation (which is present on any
real resource). -/
theorem reconcile_status_only_on_success (meta : FnMeta) (spec : FnSpec)
    (env : ReconcileEnv) (p : Option FnStatus) (hg : meta.generation.isSome = true) :
    (∀ e, (reconcile_function meta spec env p).result = .error e →
      (reconcile_function meta spec env p).patch = p) ∧
    (∀ r, (reconcile_function meta spec env p).result = .ok r →
      r.phase = "Ready" ∧
      (reconcile_function meta spec env p).patch =
        some { phase := some "Ready", reason := none
               deploymentName := some r.deploymentName
               serviceName := some r.serviceName
               observedGeneration := meta.generation }) := by
  simp only [reconcile_function]
  rcases hval : validate_spec spec with e | u
  · exact ⟨fun _ _ => rfl, fun r hr => by simp at hr⟩
  · dsimp only
    rcases hcm : (upsert_configmap env.cm (get_resource_names meta.name).configmap).1
      with ecm | cmn
    · exact ⟨fun _ _ => rfl, fun r hr => by simp at hr⟩
    · dsimp only
      rcases hdep :
        (upsert_deployment env.deploy (get_resource_names meta.name).deployment).1
        with edep | dn
      · exact ⟨fun _ _ => rfl, fun r hr => by simp at hr⟩
      · dsimp only
        rcases hsvc : (upsert_service env.svc (get_resource_names meta.name).service).1
          with esvc | sn
        · exact ⟨fun _ _ => rfl, fun r hr => by simp at hr⟩
        · dsimp only
          split_ifs with hgate
          · rcases hhpa : (upsert_hpa env.hpa
                (build_hpa_body ((get_resource_names meta.name).deployment ++ "-hpa")
                  spec dn).name).1 with ehpa | hn
            · exact ⟨fun _ _ => rfl, fun r hr => by simp at hr⟩
            · refine ⟨fun e2 he => by simp at he, ?_⟩
              intro r hr
              simp only [Except.ok.injEq] at hr
              subst hr
              simp [update_status, hg]
          · refine ⟨fun e2 he => by simp at he, ?_⟩
            intro r hr
            simp only [Except.ok.injEq] at hr
            subst hr
            simp [update_status, hg]

/-- C8 witness: with a present generation (7), a fully successful pass over
`specMin1Max5` reports Ready and writes exactly the Ready status record. -/
theorem reconcile_status_only_on_success_witness :
    metaF.generation.isSome = true ∧
    (reconcile_function metaF specMin1Max5 allOkEnv none).result =
      .ok { deploymentName := "fn-f-deploy", serviceName := "fn-f-svc"
            phase := "Ready" } ∧
    (reconcile_function metaF specMin1Max5 allOkEnv none).patch =
      some { phase := some "Ready", reason := none
             deploymentName := some "fn-f-deploy", serviceName := some "fn-f-svc"
             observedGeneration := some 7 } := by
  refine ⟨rfl, rfl, ?_⟩
  exact ((reconcile_status_only_on_success metaF specMin1Max5 allOkEnv none rfl).2
    { deploymentName := "fn-f-deploy", serviceName := "fn-f-svc", phase := "Ready" }
    rfl).2

/-- A spec whose `code` is the single-space string, otherwise valid. -/
def specSpaceCode : FnSpec :=
  { code := some (.str " "), runtime := some (.str "python3.9")
    minReplicas := none, maxReplicas := some (.int 1) }

/-- C10 witness: the single-space string is non-empty, all-whitespace, and a
spec carrying it as `code` permanently fails validation. -/
theorem blank_code_or_runtime_rejected_witness :
    (" " : String) ≠ "" ∧ (" " : String).toList.all pyIsSpace = true ∧
    validate_spec specSpaceCode = .error .permanent := by
  refine ⟨by decide, by decide, ?_⟩
  exact (blank_code_or_runtime_rejected specSpaceCode " " (by decide) (by decide)).1 rfl

/-! ## Gateway: scale-to-zero coordinator, one call (src/gateway/main.py:65-137)

One `_ensure_scaled` invocation is modelled sequentially (it runs entirely
inside the per-function lock; the concurrent model follows further below).
The Kubernetes API is an oracle `GwEnv`: `reads k` is the outcome of the
`(k+1)`-th `read_namespaced_deployment` of this call, `patch` the outcome of
the one possible `patch_namespaced_deployment_scale`. -/

/-- An HTTP error response raised via `HTTPException(status_code=...)`
(detail strings elided). -/
structure HErr where
  status : Nat
deriving DecidableEq, Repr

/-- Outcome of one deployment read: the observed `ready_replicas` (with
`None` already collapsed to 0, src/gateway/main.py:80), or an
`ApiException(status)`. -/
inductive ReadResult where
  | ok (n : Nat)
  | err (status : Nat)
deriving DecidableEq, Repr

/-- API oracle for one `_ensure_scaled` call. -/
structure GwEnv where
  reads : Nat → ReadResult
  patch : ApiOutcome

/-- `_get_deployment_ready_replicas` (src/gateway/main.py:65-80): a 404
becomes HTTP 404, any other `ApiException` becomes HTTP 502. -/
def get_deployment_ready_replicas (r : ReadResult) : Except HErr Nat :=
  match r with
  | .ok n => .ok n
  | .err st => if st = 404 then .error { status := 404 } else .error { status := 502 }

/-- `_scale_deployment_to_one` (src/gateway/main.py:83-103): a 404 becomes
HTTP 404, any other `ApiException` becomes HTTP 502. -/
def scale_deployment_to_one (p : ApiOutcome) : Except HErr Unit :=
  match p with
  | .ok => .ok ()
  | .apiErr st => if st = 404 then .error { status := 404 } else .error { status := 502 }

/-- Iterations left in the polling loop of `_wait_for_pod_ready` when the
accumulated time is `total`: the number of further `total < T` checks that
can still pass. -/
def itersQ (interval timeout total : ℚ) : ℕ :=
  (Int.ceil ((timeout - total) / interval)).toNat

lemma itersQ_decreases {interval timeout total : ℚ} (hI : 0 < interval)
    (h : total < timeout) :
    itersQ interval timeout (total + interval) < itersQ interval timeout total := by
  unfold itersQ
  have hpos : 0 < (timeout - total) / interval :=
    div_pos (by linarith) hI
  have hceil : 0 < Int.ceil ((timeout - total) / interval) := Int.ceil_pos.mpr hpos
  have harg : (timeout - (total + interval)) / interval =
      (timeout - total) / interval - 1 := by
    field_simp
    ring
  rw [harg, Int.ceil_sub_one]
  omega

/-- The polling loop of `_wait_for_pod_ready` (src/gateway/main.py:110-116):
`while total < POLL_TIMEOUT: read; if ready >= 1: return; sleep; total += I`.
`k` is the index of the next read in the call's read sequence; the second
component of the result is the index after the loop ends (= total number of
reads this call has made).  A read whose outcome is an `ApiException`
propagates out of the loop as the corresponding HTTP error. -/
def waitAux (reads : Nat → ReadResult) (interval timeout : ℚ) (hI : 0 < interval)
    (total : ℚ) (k : Nat) : Except HErr Unit × Nat :=
  if hlt : total < timeout then
    match get_deployment_ready_replicas (reads k) with
    | .error e => (.error e, k + 1)
    | .ok ready =>
      if 1 ≤ ready then (.ok (), k + 1)
      else waitAux reads interval timeout hI (total + interval) (k + 1)
  else (.error { status := 504 }, k)
termination_by itersQ interval timeout total
decreasing_by exact itersQ_decreases hI hlt

/-- `_wait_for_pod_ready` (src/gateway/main.py:106-120), entered with the
call's read counter at `k` and `total = 0.0`; raises HTTP 504 on timeout. -/
def wait_for_pod_ready (reads : Nat → ReadResult) (k : Nat)
    (interval timeout : ℚ) (hI : 0 < interval) : Except HErr Unit × Nat :=
  waitAux reads interval timeout hI 0 k

/-- Default `FAAS_POLL_INTERVAL` (src/gateway/main.py:20). -/
def POLL_INTERVAL_SECONDS : ℚ := 1/2

/-- Default `FAAS_POLL_TIMEOUT` (src/gateway/main.py:21). -/
def POLL_TIMEOUT_SECONDS : ℚ := 60

/-- `_ensure_scaled` (src/gateway/main.py:123-137), the body inside the
per-function lock: double-check read; if ready > 0 return success; else
scale patch, then poll.  Returns (result, whether the scale patch call was
issued, number of deployment reads made). -/
def ensure_scaled (genv : GwEnv) (interval timeout : ℚ) (hI : 0 < interval) :
    Except HErr Unit × Bool × Nat :=
  match get_deployment_ready_replicas (genv.reads 0) with
  | .error e => (.error e, false, 1)
  | .ok ready =>
    if ready > 0 then (.ok (), false, 1)
    else
      match scale_deployment_to_one genv.patch with
      | .error e => (.error e, true, 1)
      | .ok _ =>
        let w := wait_for_pod_ready genv.reads 1 interval timeout hI
        (w.1, true, w.2)

/-! ## Gateway: reverse proxy (src/gateway/main.py:140-195) -/

/-- An inbound request as the gateway handler sees it: `request.url.path`,
`request.url.query` (empty when absent), headers with lower-cased keys
(Starlette normalises them), and the raw body. -/
structure InRequest where
  method : String
  path : String
  query : String
  headers : List (String × String)
  body : String
deriving DecidableEq, Repr

/-- The outbound request `_proxy_to_function_service` hands to its HTTP
client. -/
structure OutRequest where
  method : String
  url : String
  headers : List (String × String)
  body : String
deriving DecidableEq, Repr

/-- A backend HTTP response (status, headers, content). -/
structure BackendResponse where
  status : Nat
  headers : List (String × String)
  body : String
deriving DecidableEq, Repr

/-- Default `FAAS_NAMESPACE` (src/gateway/main.py:18). -/
def NAMESPACE : String := "default"

/-- Default `FAAS_SERVICE_PORT` (src/gateway/main.py:19). -/
def SERVICE_PORT : Nat := 8080

/-- Models FastAPI/Starlette path matching for the route declared at
src/gateway/main.py:183, `/invoke/{function_name}`: a `{param}` segment
matches exactly one non-empty path segment and never crosses a `/`.
Returns the captured function name, or `none` when the route rejects the
path. -/
def route_match_invoke (path : String) : Option String :=
  match path.toList with
  | '/' :: 'i' :: 'n' :: 'v' :: 'o' :: 'k' :: 'e' :: '/' :: rest =>
      if rest ≠ [] ∧ '/' ∉ rest then some (String.mk rest) else none
  | _ => none

/-- The outbound request built by `_proxy_to_function_service`
(src/gateway/main.py:147-170): target URL is the Service DNS name plus the
*unmodified* inbound `request.url.path`, plus the query string when present;
headers are the inbound headers with `host` removed; the body is forwarded
unchanged. -/
def proxy_build_request (fn_name : String) (req : InRequest) : OutRequest :=
  let svc_name := service_name_from_function fn_name
  let base := "http://" ++ svc_name ++ "." ++ NAMESPACE ++ ".svc.cluster.local:" ++
    toString SERVICE_PORT ++ req.path
  let target_url := if req.query ≠ "" then base ++ "?" ++ req.query else base
  { method := req.method
    url := target_url
    headers := req.headers.filter (fun kv => kv.1 ≠ "host")
    body := req.body }

/-- `_proxy_to_function_service` (src/gateway/main.py:140-180) against a
backend oracle: `none` models an `httpx.HTTPError` (connection refused, DNS
failure, timeout) and becomes HTTP 502; a response is passed through with
its status, headers and content verbatim. -/
def proxy_to_function_service (backend : OutRequest → Option BackendResponse)
    (fn_name : String) (req : InRequest) : Except HErr BackendResponse :=
  match backend (proxy_build_request fn_name req) with
  | none => .error { status := 502 }
  | some resp => .ok { status := resp.status, headers := resp.headers, body := resp.body }

/-- `invoke_function` (src/gateway/main.py:183-195): `_ensure_scaled`, then —
only on its success — the reverse proxy.  Any `HTTPException` from either
step is the gateway's response. -/
def invoke_function (genv : GwEnv) (backend : OutRequest → Option BackendResponse)
    (fn_name : String) (req : InRequest) (interval timeout : ℚ) (hI : 0 < interval) :
    Except HErr BackendResponse :=
  match (ensure_scaled genv interval timeout hI).1 with
  | .error e => .error e
  | .ok _ => proxy_to_function_service backend fn_name req

/-! ## Polling-loop lemmas for claim C7 -/

lemma itersQ_eq_zero {interval timeout total : ℚ} (hI : 0 < interval)
    (h : timeout ≤ total) : itersQ interval timeout total = 0 := by
  unfold itersQ
  have h1 : (timeout - total) / interval ≤ 0 := by
    apply div_nonpos_iff.mpr
    right
    exact ⟨by linarith, le_of_lt hI⟩
  have h2 : Int.ceil ((timeout - total) / interval) ≤ 0 :=
    Int.ceil_le.mpr (by exact_mod_cast h1)
  omega

lemma itersQ_pos {interval timeout total : ℚ} (hI : 0 < interval)
    (h : total < timeout) : 0 < itersQ interval timeout total := by
  unfold itersQ
  have hpos : 0 < (timeout - total) / interval := div_pos (by linarith) hI
  have := Int.ceil_pos.mpr hpos
  omega

lemma itersQ_step {interval timeout total : ℚ} (hI : 0 < interval)
    (h : total < timeout) :
    itersQ interval timeout total = itersQ interval timeout (total + interval) + 1 := by
  unfold itersQ
  have hpos : 0 < (timeout - total) / interval := div_pos (by linarith) hI
  have hceil := Int.ceil_pos.mpr hpos
  have harg : (timeout - (total + interval)) / interval =
      (timeout - total) / interval - 1 := by
    field_simp
    ring
  rw [harg, Int.ceil_sub_one]
  omega

lemma waitAux_never_ready (reads : Nat → ReadResult) (interval timeout : ℚ)
    (hI : 0 < interval) :
    ∀ m total k, itersQ interval timeout total = m →
      (∀ j, k ≤ j → reads j = .ok 0) →
      waitAux reads interval timeout hI total k
        = (.error { status := 504 }, k + itersQ interval timeout total) := by
  intro m
  induction m using Nat.strong_induction_on with
  | _ m ih =>
    intro total k hm hreads
    by_cases h : total < timeout
    · rw [waitAux, dif_pos h, hreads k (le_refl k)]
      have hrec := ih (itersQ interval timeout (total + interval))
        (by rw [← hm]; exact itersQ_decreases hI h) (total + interval) (k + 1) rfl
        (fun j hj => hreads j (by omega))
      simp only [get_deployment_ready_replicas]
      rw [if_neg (by omega)]
      rw [hrec]
      have hstep := itersQ_step hI h
      simp only [Prod.mk.injEq, true_and]
      omega
    · have h0 : itersQ interval timeout total = 0 :=
        itersQ_eq_zero hI (not_lt.mp h)
      rw [waitAux, dif_neg h, h0]
      simp

lemma waitAux_reads_le (reads : Nat → ReadResult) (interval timeout : ℚ)
    (hI : 0 < interval) :
    ∀ m total k, itersQ interval timeout total = m →
      (waitAux reads interval timeout hI total k).2
        ≤ k + itersQ interval timeout total := by
  intro m
  induction m using Nat.strong_induction_on with
  | _ m ih =>
    intro total k hm
    by_cases h : total < timeout
    · have hpos := itersQ_pos hI h
      rw [waitAux, dif_pos h]
      rcases hr : reads k with n | st
      · simp only [get_deployment_ready_replicas]
        by_cases hn : 1 ≤ n
        · rw [if_pos hn]
          simpa using by omega
        · rw [if_neg hn]
          have hrec := ih (itersQ interval timeout (total + interval))
            (by rw [← hm]; exact itersQ_decreases hI h) (total + interval) (k + 1) rfl
          have hstep := itersQ_step hI h
          omega
      · simp only [get_deployment_ready_replicas]
        split_ifs <;> simpa using by omega
    · rw [waitAux, dif_neg h]
      simp

lemma waitAux_first_ready (reads : Nat → ReadResult) (interval timeout : ℚ)
    (hI : 0 < interval) (k0 n : Nat) (hk0 : reads k0 = .ok n) (hn : 1 ≤ n) :
    ∀ m total k, itersQ interval timeout total = m → k ≤ k0 →
      (∀ j, k ≤ j → j < k0 → reads j = .ok 0) →
      k0 - k < itersQ interval timeout total →
      waitAux reads interval timeout hI total k = (.ok (), k0 + 1) := by
  intro m
  induction m using Nat.strong_induction_on with
  | _ m ih =>
    intro total k hm hk hzero hlt
    have h : total < timeout := by
      by_contra hcon
      rw [itersQ_eq_zero hI (not_lt.mp hcon)] at hlt
      omega
    rw [waitAux, dif_pos h]
    by_cases hkk : k = k0
    · subst hkk
      rw [hk0]
      simp [get_deployment_ready_replicas, hn]
    · have hklt : k < k0 := lt_of_le_of_ne hk hkk
      rw [hzero k (le_refl k) hklt]
      simp only [get_deployment_ready_replicas]
      rw [if_neg (by omega)]
      have hstep := itersQ_step hI h
      exact ih (itersQ interval timeout (total + interval))
        (by rw [← hm]; exact itersQ_decreases hI h) (total + interval) (k + 1) rfl
        (by omega) (fun j hj hj2 => hzero j (by omega) hj2) (by omega)

/-- The inbound request of the spec's passthrough example, as accepted by
the route (path `/invoke/f`, since the route cannot accept a sub-path). -/
def reqF : InRequest :=
  { method := "GET", path := "/invoke/f", query := "x=1"
    headers := [("host", "gw.local"), ("x-test", "a")], body := "" }

/-- A backend oracle that answers every request with a fixed response. -/
def respF : BackendResponse :=
  { status := 418, headers := [("content-type", "text/plain")], body := "hello" }

/-! ## Claim C6: double-check short-circuit -/

/-- C6: if the ready-replica count read after acquiring the function's lock
is already ≥ 1, `_ensure_scaled` returns success immediately: no scale patch
is issued and no further read (polling) happens — exactly one API read in
total. -/
theorem ensure_scaled_short_circuit (genv : GwEnv) (interval timeout : ℚ)
    (hI : 0 < interval) (n : Nat) (h0 : genv.reads 0 = .ok n) (hn : 1 ≤ n) :
    ensure_scaled genv interval timeout hI = (.ok (), false, 1) := by
  have hpos : 0 < n := hn
  simp [ensure_scaled, get_deployment_ready_replicas, h0, hpos]

/-- A gateway API oracle for an already-warm function: every read sees one
ready replica. -/
def warmEnv : GwEnv := { reads := fun _ => .ok 1, patch := .ok }

/-- C6 witness: at the warm oracle the double-check read returns 1 and the
call succeeds with no patch and a single read. -/
theorem ensure_scaled_short_circuit_witness :
    warmEnv.reads 0 = .ok 1 ∧ (1 : Nat) ≤ 1 ∧
    ensure_scaled warmEnv POLL_INTERVAL_SECONDS POLL_TIMEOUT_SECONDS
      (by norm_num [POLL_INTERVAL_SECONDS]) = (.ok (), false, 1) := by
  refine ⟨rfl, le_refl 1, ?_⟩
  exact ensure_scaled_short_circuit warmEnv POLL_INTERVAL_SECONDS POLL_TIMEOUT_SECONDS
    (by norm_num [POLL_INTERVAL_SECONDS]) 1 rfl (le_refl 1)

/-! ## Claim C7: bounded polling, timeout surfaces as 504 -/

/-- C7: against a workload that exists but never becomes ready,
`_ensure_scaled` patches once and polls at the fixed interval, making
exactly `1 + ⌈timeout/interval⌉` reads in total, and returns the 504
Timeout, which `invoke_function` surfaces unchanged; with the default
interval 0.5 s and ceiling 60 s the loop makes 120 polls.  For *every* read
oracle the loop makes at most `⌈timeout/interval⌉` reads (it always
terminates), and it returns success at the first poll that observes ≥ 1
ready replicas. -/
theorem wait_timeout_504 (genv : GwEnv) (backend : OutRequest → Option BackendResponse)
    (fn : String) (req : InRequest) (interval timeout : ℚ) (hI : 0 < interval)
    (h0 : genv.reads 0 = .ok 0) (hp : genv.patch = .ok)
    (hnever : ∀ j, 1 ≤ j → genv.reads j = .ok 0) :
    ensure_scaled genv interval timeout hI
      = (.error { status := 504 }, true, 1 + itersQ interval timeout 0) ∧
    invoke_function genv backend fn req interval timeout hI
      = .error { status := 504 } ∧
    itersQ interval timeout 0 = (Int.ceil (timeout / interval)).toNat ∧
    itersQ POLL_INTERVAL_SECONDS POLL_TIMEOUT_SECONDS 0 = 120 ∧
    (∀ reads : Nat → ReadResult, ∀ k,
      (wait_for_pod_ready reads k interval timeout hI).2
        ≤ k + (Int.ceil (timeout / interval)).toNat) ∧
    (∀ reads : Nat → ReadResult, ∀ k0 n, reads k0 = .ok n → 1 ≤ n →
      (∀ j, j < k0 → reads j = .ok 0) → k0 < itersQ interval timeout 0 →
      wait_for_pod_ready reads 0 interval timeout hI = (.ok (), k0 + 1)) := by
  have hwait := waitAux_never_ready genv.reads interval timeout hI
    (itersQ interval timeout 0) 0 1 rfl (fun j hj => hnever j hj)
  have hens : ensure_scaled genv interval timeout hI
      = (.error { status := 504 }, true, 1 + itersQ interval timeout 0) := by
    simp only [ensure_scaled, h0, get_deployment_ready_replicas]
    rw [if_neg (by omega)]
    simp only [scale_deployment_to_one, hp, wait_for_pod_ready]
    rw [hwait]
  refine ⟨hens, ?_, ?_, ?_, ?_, ?_⟩
  · simp only [invoke_function, hens]
  · simp [itersQ]
  · norm_num [itersQ, POLL_INTERVAL_SECONDS, POLL_TIMEOUT_SECONDS]
    rfl
  · intro reads k
    have hle := waitAux_reads_le reads interval timeout hI
      (itersQ interval timeout 0) 0 k rfl
    simpa [wait_for_pod_ready, itersQ] using hle
  · intro reads k0 n hk0 hn hzero hlt
    exact waitAux_first_ready reads interval timeout hI k0 n hk0 hn
      (itersQ interval timeout 0) 0 0 rfl (by omega)
      (fun j _ hj2 => hzero j hj2) (by simpa using hlt)

/-- A gateway API oracle for a workload that never becomes ready. -/
def coldEnv : GwEnv := { reads := fun _ => .ok 0, patch := .ok }

/-- C7 witness: at the never-ready oracle with the default interval and
ceiling, the gateway responds 504. -/
theorem wait_timeout_504_witness :
    coldEnv.reads 0 = .ok 0 ∧ coldEnv.patch = .ok ∧
    (∀ j, 1 ≤ j → coldEnv.reads j = .ok 0) ∧
    invoke_function coldEnv (fun _ => some respF) "f" reqF POLL_INTERVAL_SECONDS
      POLL_TIMEOUT_SECONDS (by norm_num [POLL_INTERVAL_SECONDS])
      = .error { status := 504 } := by
  refine ⟨rfl, rfl, fun j _ => rfl, ?_⟩
  exact (wait_timeout_504 coldEnv (fun _ => some respF) "f" reqF
    POLL_INTERVAL_SECONDS POLL_TIMEOUT_SECONDS
    (by norm_num [POLL_INTERVAL_SECONDS]) rfl rfl (fun j _ => rfl)).2.1

/-! ## Claim C3: proxy passthrough -/

/-- C3 counterexample: a GET to `/invoke/f/foo` is not accepted by the
gateway's route at all (the `{function_name}` parameter cannot span a `/`),
and for the accepted path `/invoke/f` the proxy forwards the inbound path
*unchanged* — the target URL still contains `/invoke/f`, the prefix is not
stripped to the sub-path. -/
theorem proxy_subpath_counterexample :
    route_match_invoke "/invoke/f/foo" = none ∧
    route_match_invoke "/invoke/f" = some "f" ∧
    (proxy_build_request "f" reqF).url
      = "http://fn-f-svc.default.svc.cluster.local:8080/invoke/f?x=1" := by
  exact ⟨by decide, by decide, by decide⟩

lemma data_invoke_prefix (s : String) :
    ("/invoke/" ++ s).toList = '/' :: 'i' :: 'n' :: 'v' :: 'o' :: 'k' :: 'e' :: '/' :: s.toList := by
  have h1 : ("/invoke/" ++ s).data = "/invoke/".data ++ s.data := String.data_append ..
  simp [String.toList, h1]

/-- C3 (amended): the gateway's route accepts no sub-path (any
`/invoke/{fn}/{sub}` is rejected); for an accepted request the proxy
preserves the method, forwards the inbound path *unchanged* (the
`/invoke/{functionName}` prefix is not stripped) with the query string
appended when non-empty, drops exactly the `host` header, sends the body
unmodified, and on backend success returns the backend's status, headers
and body verbatim. -/
theorem invoke_proxy_passthrough (fn sub : String) (req : InRequest)
    (backend : OutRequest → Option BackendResponse) (resp : BackendResponse)
    (_hsub : sub ≠ "") :
    route_match_invoke ("/invoke/" ++ (fn ++ "/" ++ sub)) = none ∧
    (proxy_build_request fn req).method = req.method ∧
    (proxy_build_request fn req).headers
      = req.headers.filter (fun kv => kv.1 ≠ "host") ∧
    (proxy_build_request fn req).body = req.body ∧
    (proxy_build_request fn req).url =
      (if req.query ≠ "" then
        "http://" ++ service_name_from_function fn ++ "." ++ NAMESPACE ++
          ".svc.cluster.local:" ++ toString SERVICE_PORT ++ req.path ++ "?" ++ req.query
       else
        "http://" ++ service_name_from_function fn ++ "." ++ NAMESPACE ++
          ".svc.cluster.local:" ++ toString SERVICE_PORT ++ req.path) ∧
    (backend (proxy_build_request fn req) = some resp →
      proxy_to_function_service backend fn req = .ok resp) := by
  refine ⟨?_, rfl, rfl, rfl, ?_, ?_⟩
  · rw [route_match_invoke, data_invoke_prefix]
    have hmem : '/' ∈ (fn ++ "/" ++ sub).toList := by
      have : (fn ++ "/" ++ sub).data = fn.data ++ '/' :: sub.data := by
        simp [String.data_append]
      simp [String.toList, this]
    simp [hmem]
  · by_cases hq : req.query = "" <;> simp [proxy_build_request, hq]
  · intro h
    simp [proxy_to_function_service, h]

/-- C3 witness for the amended theorem: at `fn = "f"`, `sub = "foo"`, the
request `reqF` and a constant backend, the sub-path is rejected and the
backend's response is passed through verbatim. -/
theorem invoke_proxy_passthrough_witness :
    ("foo" : String) ≠ "" ∧
    route_match_invoke ("/invoke/" ++ ("f" ++ "/" ++ "foo")) = none ∧
    proxy_to_function_service (fun _ => some respF) "f" reqF = .ok respF := by
  refine ⟨by decide, ?_, ?_⟩
  · exact (invoke_proxy_passthrough "f" "foo" reqF (fun _ => some respF) respF
      (by decide)).1
  · exact (invoke_proxy_passthrough "f" "foo" reqF (fun _ => some respF) respF
      (by decide)).2.2.2.2.2 rfl

/-! ## Claim C1: single-flight scaling under concurrent callers

Interleaving model of N concurrent `_ensure_scaled(f)` coroutines for one
function name in one gateway process.  asyncio runs the code between awaits
atomically, so every await point of src/gateway/main.py:123-137 is one
atomic step.  `_get_or_create_lock` (src/gateway/main.py:56-62) has no await
between its dict read and write, so all callers share one `asyncio.Lock`,
modelled by `lockHolder`.  The cluster is a `desired`/`ready` replica pair;
an environment step may mark the workload ready, but only after a scale
patch has raised `desired` — and readiness never regresses.  The workload
exists (the claim's setting), so reads and the patch succeed. -/

/-- Result of one finished `_ensure_scaled` call in the concurrent model. -/
inductive TaskResult where
  | success
  | timeout
deriving DecidableEq, Repr

/-- Control point of one caller between awaits:
`start` — awaiting the lock (src/gateway/main.py:128);
`lockedRead` — holds the lock, about to double-check (line 130);
`aboutToPatch` — observed 0 ready, about to issue the scale patch (line 135);
`poll total` — in `_wait_for_pod_ready`, about to test `total < timeout`
and read (lines 111-113); `sleeping total` — about to finish the
`asyncio.sleep` and add the interval (lines 115-116); `done r` — returned,
lock released. -/
inductive Pc where
  | start
  | lockedRead
  | aboutToPatch
  | poll (total : ℚ)
  | sleeping (total : ℚ)
  | done (r : TaskResult)
deriving DecidableEq, Repr

/-- Is a caller inside the `async with lock` critical section? -/
def inCS : Pc → Bool
  | .lockedRead => true
  | .aboutToPatch => true
  | .poll _ => true
  | .sleeping _ => true
  | _ => false

/-- Is a caller in the readiness-polling loop (it has already patched)? -/
def isPollingPc : Pc → Bool
  | .poll _ => true
  | .sleeping _ => true
  | _ => false

/-- Has a caller returned? -/
def isDonePc : Pc → Bool
  | .done _ => true
  | _ => false

/-- Global state: `n` callers, their control points, the lock, and the
cluster (`desired` replicas, `ready` replicas, number of scale patches
issued so far). -/
structure GConfig where
  n : Nat
  tasks : Nat → Pc
  lockHolder : Option Nat
  desired : Nat
  ready : Nat
  patchCount : Nat

/-- A scheduling choice: run one atomic step of caller `i`, or one
environment step (the cluster bringing a replica up). -/
inductive Choice where
  | task (i : Nat)
  | env
deriving DecidableEq, Repr

/-- One atomic step of caller `i` (out-of-range or finished callers, and
callers blocked on the held lock, do nothing). -/
def stepTask (interval timeout : ℚ) (c : GConfig) (i : Nat) : GConfig :=
  if i < c.n then
    match c.tasks i with
    | .start =>
      match c.lockHolder with
      | none => { c with lockHolder := some i
                         tasks := Function.update c.tasks i .lockedRead }
      | some _ => c
    | .lockedRead =>
      if 1 ≤ c.ready then
        { c with tasks := Function.update c.tasks i (.done .success)
                 lockHolder := none }
      else
        { c with tasks := Function.update c.tasks i .aboutToPatch }
    | .aboutToPatch =>
      { c with desired := 1, patchCount := c.patchCount + 1
               tasks := Function.update c.tasks i (.poll 0) }
    | .poll total =>
      if total < timeout then
        if 1 ≤ c.ready then
          { c with tasks := Function.update c.tasks i (.done .success)
                   lockHolder := none }
        else
          { c with tasks := Function.update c.tasks i (.sleeping total) }
      else
        { c with tasks := Function.update c.tasks i (.done .timeout)
                 lockHolder := none }
    | .sleeping total =>
      { c with tasks := Function.update c.tasks i (.poll (total + interval)) }
    | .done _ => c
  else c

/-- One step of the whole system.  The environment can only report a ready
replica after some patch has raised `desired`, and never lowers `ready`. -/
def step (interval timeout : ℚ) (c : GConfig) (ch : Choice) : GConfig :=
  match ch with
  | .task i => stepTask interval timeout c i
  | .env => if 1 ≤ c.desired then { c with ready := max c.ready 1 } else c

/-- Run a schedule. -/
def run (interval timeout : ℚ) (c : GConfig) : List Choice → GConfig
  | [] => c
  | ch :: rest => run interval timeout (step interval timeout c ch) rest

/-- N callers racing a workload at 0 desired / 0 ready replicas. -/
def initConfig (N : Nat) : GConfig :=
  { n := N, tasks := fun _ => .start, lockHolder := none
    desired := 0, ready := 0, patchCount := 0 }

/-- Some caller has already returned Timeout. -/
def someTimeout (c : GConfig) : Prop :=
  ∃ j, j < c.n ∧ c.tasks j = .done .timeout

/-- Inductive invariant of the model: the lock gives mutual exclusion; a
patch is required before `desired`, which is required before `ready`; a
successful return means readiness was observed (and persists); if a patch
happened, either the patcher is still polling under the lock, or readiness
is visible, or someone timed out; a caller about to patch can only exist
before the first patch or after a timeout; and more than one patch requires
a timeout in between. -/
structure Inv (c : GConfig) : Prop where
  holder_lt : ∀ i, c.lockHolder = some i → i < c.n
  holder_cs : ∀ i, c.lockHolder = some i → inCS (c.tasks i) = true
  cs_holder : ∀ j, j < c.n → inCS (c.tasks j) = true → c.lockHolder = some j
  desired_patch : 1 ≤ c.desired ↔ 1 ≤ c.patchCount
  ready_desired : 1 ≤ c.ready → 1 ≤ c.desired
  success_ready : ∀ i, i < c.n → c.tasks i = .done .success → 1 ≤ c.ready
  patched_state : 1 ≤ c.patchCount →
    (∃ i, c.lockHolder = some i ∧ isPollingPc (c.tasks i) = true) ∨
    1 ≤ c.ready ∨ someTimeout c
  atp_fresh : ∀ i, i < c.n → c.tasks i = .aboutToPatch →
    (c.patchCount = 0 ∨ someTimeout c)
  patch_once : c.patchCount ≤ 1 ∨ someTimeout c

lemma inv_init (N : Nat) : Inv (initConfig N) := by
  constructor <;> simp [initConfig, someTimeout, inCS]

lemma someTimeout_update_of {c : GConfig} {i : Nat} (pc : Pc)
    (h : someTimeout c) (hi : c.tasks i ≠ .done .timeout) :
    ∃ j, j < c.n ∧ Function.update c.tasks i pc j = .done .timeout := by
  obtain ⟨j, hj, hjt⟩ := h
  have hji : j ≠ i := by
    rintro rfl
    exact hi hjt
  exact ⟨j, hj, by rw [Function.update_apply, if_neg hji]; exact hjt⟩

lemma inv_step (interval timeout : ℚ) (c : GConfig) (ch : Choice) (hc : Inv c) :
    Inv (step interval timeout c ch) := by
  cases ch with
  | env =>
    by_cases hd : 1 ≤ c.desired
    · simp only [step, if_pos hd]
      refine ⟨?_, ?_, ?_, ?_, ?_, ?_, ?_, ?_, ?_⟩
      · exact fun i h => hc.holder_lt i h
      · exact fun i h => hc.holder_cs i h
      · exact fun j hj h => hc.cs_holder j hj h
      · exact hc.desired_patch
      · intro _
        exact hd
      · intro i hi _
        simp
      · intro _
        right
        left
        simp
      · exact fun i hi ha => hc.atp_fresh i hi ha
      · exact hc.patch_once
    · simp only [step, if_neg hd]
      exact hc
  | task i =>
    simp only [step]
    by_cases hi : i < c.n
    case neg =>
      simp only [stepTask, if_neg hi]
      exact hc
    case pos =>
    rcases hpc : c.tasks i with _ | _ | _ | total | total | r
    · -- start: acquire the lock if free
      rcases hlh : c.lockHolder with _ | h
      · simp only [stepTask, if_pos hi, hpc, hlh]
        refine ⟨?_, ?_, ?_, ?_, ?_, ?_, ?_, ?_, ?_⟩
        · intro j hj
          simp only [Option.some.injEq] at hj
          subst hj
          exact hi
        · intro j hj
          simp only [Option.some.injEq] at hj
          subst hj
          simp [Function.update_apply, inCS]
        · intro j hj hcs
          by_cases hji : j = i
          · subst hji
            rfl
          · simp only [Function.update_apply, if_neg hji] at hcs
            exact absurd (hc.cs_holder j hj hcs) (by simp [hlh])
        · exact hc.desired_patch
        · exact hc.ready_desired
        · intro j hj hs
          by_cases hji : j = i
          · subst hji
            simp [Function.update_apply] at hs
          · simp only [Function.update_apply, if_neg hji] at hs
            exact hc.success_ready j hj hs
        · intro hp
          rcases hc.patched_state hp with ⟨k, hk, _⟩ | hr | ht
          · rw [hlh] at hk
            exact absurd hk (by simp)
          · exact Or.inr (Or.inl hr)
          · exact Or.inr (Or.inr (someTimeout_update_of _ ht (by rw [hpc]; simp)))
        · intro j hj ha
          by_cases hji : j = i
          · subst hji
            simp [Function.update_apply] at ha
          · simp only [Function.update_apply, if_neg hji] at ha
            rcases hc.atp_fresh j hj ha with h0 | ht
            · exact Or.inl h0
            · exact Or.inr (someTimeout_update_of _ ht (by rw [hpc]; simp))
        · rcases hc.patch_once with h0 | ht
          · exact Or.inl h0
          · exact Or.inr (someTimeout_update_of _ ht (by rw [hpc]; simp))
      · simp only [stepTask, if_pos hi, hpc, hlh]
        exact hc
    · -- lockedRead: double check
      have hhold : c.lockHolder = some i :=
        hc.cs_holder i hi (by rw [hpc]; rfl)
      by_cases hr : 1 ≤ c.ready
      · simp only [stepTask, if_pos hi, hpc, if_pos hr]
        refine ⟨?_, ?_, ?_, ?_, ?_, ?_, ?_, ?_, ?_⟩
        · intro j hj
          simp at hj
        · intro j hj
          simp at hj
        · intro j hj hcs
          by_cases hji : j = i
          · subst hji
            simp [Function.update_apply, inCS] at hcs
          · simp only [Function.update_apply, if_neg hji] at hcs
            have := hc.cs_holder j hj hcs
            rw [hhold] at this
            simp only [Option.some.injEq] at this
            exact absurd this.symm hji
        · exact hc.desired_patch
        · exact hc.ready_desired
        · intro j hj _
          exact hr
        · intro _
          exact Or.inr (Or.inl hr)
        · intro j hj ha
          by_cases hji : j = i
          · subst hji
            simp [Function.update_apply] at ha
          · simp only [Function.update_apply, if_neg hji] at ha
            rcases hc.atp_fresh j hj ha with h0 | ht
            · exact Or.inl h0
            · exact Or.inr (someTimeout_update_of _ ht (by rw [hpc]; simp))
        · rcases hc.patch_once with h0 | ht
          · exact Or.inl h0
          · exact Or.inr (someTimeout_update_of _ ht (by rw [hpc]; simp))
      · simp only [stepTask, if_pos hi, hpc, if_neg hr]
        refine ⟨?_, ?_, ?_, ?_, ?_, ?_, ?_, ?_, ?_⟩
        · exact fun j hj => hc.holder_lt j hj
        · intro j hj
          have hji : j = i := by
            rw [hhold] at hj
            simpa using hj.symm
          subst hji
          simp [Function.update_apply, inCS]
        · intro j hj hcs
          by_cases hji : j = i
          · subst hji
            exact hhold
          · simp only [Function.update_apply, if_neg hji] at hcs
            exact hc.cs_holder j hj hcs
        · exact hc.desired_patch
        · exact hc.ready_desired
        · intro j hj hs
          by_cases hji : j = i
          · subst hji
            simp [Function.update_apply] at hs
          · simp only [Function.update_apply, if_neg hji] at hs
            exact hc.success_ready j hj hs
        · intro hp
          rcases hc.patched_state hp with ⟨k, hk, hkp⟩ | hrr | ht
          · rw [hhold] at hk
            simp only [Option.some.injEq] at hk
            subst hk
            rw [hpc] at hkp
            simp [isPollingPc] at hkp
          · exact absurd hrr hr
          · exact Or.inr (Or.inr (someTimeout_update_of _ ht (by rw [hpc]; simp)))
        · intro j hj ha
          by_cases hji : j = i
          · -- the caller entering aboutToPatch: patchCount = 0 or a timeout exists
            subst hji
            by_cases hp : 1 ≤ c.patchCount
            · rcases hc.patched_state hp with ⟨k, hk, hkp⟩ | hrr | ht
              · rw [hhold] at hk
                simp only [Option.some.injEq] at hk
                subst hk
                rw [hpc] at hkp
                simp [isPollingPc] at hkp
              · exact absurd hrr hr
              · exact Or.inr (someTimeout_update_of _ ht (by rw [hpc]; simp))
            · left
              show c.patchCount = 0
              omega
          · simp only [Function.update_apply, if_neg hji] at ha
            rcases hc.atp_fresh j hj ha with h0 | ht
            · exact Or.inl h0
            · exact Or.inr (someTimeout_update_of _ ht (by rw [hpc]; simp))
        · rcases hc.patch_once with h0 | ht
          · exact Or.inl h0
          · exact Or.inr (someTimeout_update_of _ ht (by rw [hpc]; simp))
    · -- aboutToPatch: issue the scale patch
      have hhold : c.lockHolder = some i :=
        hc.cs_holder i hi (by rw [hpc]; rfl)
      simp only [stepTask, if_pos hi, hpc]
      refine ⟨?_, ?_, ?_, ?_, ?_, ?_, ?_, ?_, ?_⟩
      · exact fun j hj => hc.holder_lt j hj
      · intro j hj
        have hji : j = i := by
          rw [hhold] at hj
          simpa using hj.symm
        subst hji
        simp [Function.update_apply, inCS]
      · intro j hj hcs
        by_cases hji : j = i
        · subst hji
          exact hhold
        · simp only [Function.update_apply, if_neg hji] at hcs
          exact hc.cs_holder j hj hcs
      · simp
      · intro _
        simp
      · intro j hj hs
        by_cases hji : j = i
        · subst hji
          simp [Function.update_apply] at hs
        · simp only [Function.update_apply, if_neg hji] at hs
          exact hc.success_ready j hj hs
      · intro _
        refine Or.inl ⟨i, hhold, ?_⟩
        simp [Function.update_apply, isPollingPc]
      · intro j hj ha
        by_cases hji : j = i
        · subst hji
          simp [Function.update_apply] at ha
        · simp only [Function.update_apply, if_neg hji] at ha
          have := hc.cs_holder j hj (by rw [ha]; rfl)
          rw [hhold] at this
          simp only [Option.some.injEq] at this
          exact absurd this.symm hji
      · rcases hc.atp_fresh i hi hpc with h0 | ht
        · left
          show c.patchCount + 1 ≤ 1
          omega
        · exact Or.inr (someTimeout_update_of _ ht (by rw [hpc]; simp))
    · -- poll: loop-condition check plus read
      have hhold : c.lockHolder = some i :=
        hc.cs_holder i hi (by rw [hpc]; rfl)
      by_cases hT : total < timeout
      · by_cases hr : 1 ≤ c.ready
        · simp only [stepTask, if_pos hi, hpc, if_pos hT, if_pos hr]
          refine ⟨?_, ?_, ?_, ?_, ?_, ?_, ?_, ?_, ?_⟩
          · intro j hj
            simp at hj
          · intro j hj
            simp at hj
          · intro j hj hcs
            by_cases hji : j = i
            · subst hji
              simp [Function.update_apply, inCS] at hcs
            · simp only [Function.update_apply, if_neg hji] at hcs
              have := hc.cs_holder j hj hcs
              rw [hhold] at this
              simp only [Option.some.injEq] at this
              exact absurd this.symm hji
          · exact hc.desired_patch
          · exact hc.ready_desired
          · intro j hj _
            exact hr
          · intro _
            exact Or.inr (Or.inl hr)
          · intro j hj ha
            by_cases hji : j = i
            · subst hji
              simp [Function.update_apply] at ha
            · simp only [Function.update_apply, if_neg hji] at ha
              rcases hc.atp_fresh j hj ha with h0 | ht
              · exact Or.inl h0
              · exact Or.inr (someTimeout_update_of _ ht (by rw [hpc]; simp))
          · rcases hc.patch_once with h0 | ht
            · exact Or.inl h0
            · exact Or.inr (someTimeout_update_of _ ht (by rw [hpc]; simp))
        · simp only [stepTask, if_pos hi, hpc, if_pos hT, if_neg hr]
          refine ⟨?_, ?_, ?_, ?_, ?_, ?_, ?_, ?_, ?_⟩
          · exact fun j hj => hc.holder_lt j hj
          · intro j hj
            have hji : j = i := by
              rw [hhold] at hj
              simpa using hj.symm
            subst hji
            simp [Function.update_apply, inCS]
          · intro j hj hcs
            by_cases hji : j = i
            · subst hji
              exact hhold
            · simp only [Function.update_apply, if_neg hji] at hcs
              exact hc.cs_holder j hj hcs
          · exact hc.desired_patch
          · exact hc.ready_desired
          · intro j hj hs
            by_cases hji : j = i
            · subst hji
              simp [Function.update_apply] at hs
            · simp only [Function.update_apply, if_neg hji] at hs
              exact hc.success_ready j hj hs
          · intro _
            refine Or.inl ⟨i, hhold, ?_⟩
            simp [Function.update_apply, isPollingPc]
          · intro j hj ha
            by_cases hji : j = i
            · subst hji
              simp [Function.update_apply] at ha
            · simp only [Function.update_apply, if_neg hji] at ha
              rcases hc.atp_fresh j hj ha with h0 | ht
              · exact Or.inl h0
              · exact Or.inr (someTimeout_update_of _ ht (by rw [hpc]; simp))
          · rcases hc.patch_once with h0 | ht
            · exact Or.inl h0
            · exact Or.inr (someTimeout_update_of _ ht (by rw [hpc]; simp))
      · -- budget exhausted: return Timeout, release the lock
        simp only [stepTask, if_pos hi, hpc, if_neg hT]
        have hto : ∃ j, j < c.n ∧ Function.update c.tasks i (Pc.done .timeout) j
            = .done .timeout :=
          ⟨i, hi, by simp [Function.update_apply]⟩
        refine ⟨?_, ?_, ?_, ?_, ?_, ?_, ?_, ?_, ?_⟩
        · intro j hj
          simp at hj
        · intro j hj
          simp at hj
        · intro j hj hcs
          by_cases hji : j = i
          · subst hji
            simp [Function.update_apply, inCS] at hcs
          · simp only [Function.update_apply, if_neg hji] at hcs
            have := hc.cs_holder j hj hcs
            rw [hhold] at this
            simp only [Option.some.injEq] at this
            exact absurd this.symm hji
        · exact hc.desired_patch
        · exact hc.ready_desired
        · intro j hj hs
          by_cases hji : j = i
          · subst hji
            simp [Function.update_apply] at hs
          · simp only [Function.update_apply, if_neg hji] at hs
            exact hc.success_ready j hj hs
        · intro _
          exact Or.inr (Or.inr hto)
        · intro j hj _
          exact Or.inr hto
        · exact Or.inr hto
    · -- sleeping: wake and add the interval
      have hhold : c.lockHolder = some i :=
        hc.cs_holder i hi (by rw [hpc]; rfl)
      simp only [stepTask, if_pos hi, hpc]
      refine ⟨?_, ?_, ?_, ?_, ?_, ?_, ?_, ?_, ?_⟩
      · exact fun j hj => hc.holder_lt j hj
      · intro j hj
        have hji : j = i := by
          rw [hhold] at hj
          simpa using hj.symm
        subst hji
        simp [Function.update_apply, inCS]
      · intro j hj hcs
        by_cases hji : j = i
        · subst hji
          exact hhold
        · simp only [Function.update_apply, if_neg hji] at hcs
          exact hc.cs_holder j hj hcs
      · exact hc.desired_patch
      · exact hc.ready_desired
      · intro j hj hs
        by_cases hji : j = i
        · subst hji
          simp [Function.update_apply] at hs
        · simp only [Function.update_apply, if_neg hji] at hs
          exact hc.success_ready j hj hs
      · intro _
        refine Or.inl ⟨i, hhold, ?_⟩
        simp [Function.update_apply, isPollingPc]
      · intro j hj ha
        by_cases hji : j = i
        · subst hji
          simp [Function.update_apply] at ha
        · simp only [Function.update_apply, if_neg hji] at ha
          rcases hc.atp_fresh j hj ha with h0 | ht
          · exact Or.inl h0
          · exact Or.inr (someTimeout_update_of _ ht (by rw [hpc]; simp))
      · rcases hc.patch_once with h0 | ht
        · exact Or.inl h0
        · exact Or.inr (someTimeout_update_of _ ht (by rw [hpc]; simp))
    · -- done: no-op
      simp only [stepTask, if_pos hi, hpc]
      exact hc

lemma inv_run (interval timeout : ℚ) :
    ∀ sched c, Inv c → Inv (run interval timeout c sched) := by
  intro sched
  induction sched with
  | nil =>
    intro c hc
    exact hc
  | cons ch rest ih =>
    intro c hc
    exact ih _ (inv_step interval timeout c ch hc)

lemma stepTask_n (interval timeout : ℚ) (c : GConfig) (i : Nat) :
    (stepTask interval timeout c i).n = c.n := by
  unfold stepTask
  repeat' split
  all_goals rfl

lemma step_n (interval timeout : ℚ) (c : GConfig) (ch : Choice) :
    (step interval timeout c ch).n = c.n := by
  cases ch with
  | task i => exact stepTask_n interval timeout c i
  | env =>
    simp only [step]
    split <;> rfl

lemma run_n (interval timeout : ℚ) :
    ∀ sched c, (run interval timeout c sched).n = c.n := by
  intro sched
  induction sched with
  | nil =>
    intro c
    rfl
  | cons ch rest ih =>
    intro c
    rw [run, ih, step_n]

/-- C1: in the interleaving model of N concurrent `_ensure_scaled(f)` calls
against a workload starting at 0 ready replicas, any schedule under which
every caller has returned and none returned Timeout issued exactly one scale
patch, and every one of the N callers returned success. -/
theorem ensure_scaled_single_flight (interval timeout : ℚ) (N : Nat)
    (sched : List Choice) (hN : 0 < N)
    (hdone : ∀ i, i < N →
      isDonePc ((run interval timeout (initConfig N) sched).tasks i) = true)
    (hnoto : ∀ i, i < N →
      (run interval timeout (initConfig N) sched).tasks i ≠ .done .timeout) :
    (run interval timeout (initConfig N) sched).patchCount = 1 ∧
    (∀ i, i < N →
      (run interval timeout (initConfig N) sched).tasks i = .done .success) := by
  set fc := run interval timeout (initConfig N) sched with hfc
  have hinv : Inv fc := inv_run interval timeout sched _ (inv_init N)
  have hn : fc.n = N := by
    rw [hfc, run_n]
    rfl
  have hsucc : ∀ i, i < N → fc.tasks i = .done .success := by
    intro i hiN
    have hd := hdone i hiN
    rcases hp : fc.tasks i with _ | _ | _ | t | t | r
    · rw [hp] at hd
      simp [isDonePc] at hd
    · rw [hp] at hd
      simp [isDonePc] at hd
    · rw [hp] at hd
      simp [isDonePc] at hd
    · rw [hp] at hd
      simp [isDonePc] at hd
    · rw [hp] at hd
      simp [isDonePc] at hd
    · cases r with
      | success => rfl
      | timeout => exact absurd hp (hnoto i hiN)
  have hnt : ¬ someTimeout fc := by
    rintro ⟨j, hj, hjt⟩
    rw [hn] at hj
    exact hnoto j hj hjt
  have hp1 : fc.patchCount ≤ 1 := by
    rcases hinv.patch_once with hle | ht
    · exact hle
    · exact absurd ht hnt
  have hr : 1 ≤ fc.ready :=
    hinv.success_ready 0 (by omega) (hsucc 0 hN)
  have hd1 : 1 ≤ fc.desired := hinv.ready_desired hr
  have hpc1 : 1 ≤ fc.patchCount := hinv.desired_patch.mp hd1
  exact ⟨by omega, hsucc⟩

/-- A complete schedule for two callers: caller 0 acquires, double-checks,
patches, observes readiness, succeeds; caller 1 then acquires, sees the
warm workload, and short-circuits. -/
def schedC1 : List Choice :=
  [.task 0, .task 0, .task 0, .env, .task 0, .task 1, .task 1]

/-- C1 witness: at N = 2 with the concrete schedule `schedC1`, both callers
finish successfully, none times out, and exactly one scale patch was
issued. -/
theorem ensure_scaled_single_flight_witness :
    (0 < 2) ∧
    (∀ i, i < 2 → isDonePc ((run 1 1 (initConfig 2) schedC1).tasks i) = true) ∧
    (∀ i, i < 2 → (run 1 1 (initConfig 2) schedC1).tasks i ≠ .done .timeout) ∧
    (run 1 1 (initConfig 2) schedC1).patchCount = 1 ∧
    (∀ i, i < 2 → (run 1 1 (initConfig 2) schedC1).tasks i = .done .success) := by
  refine ⟨by decide, by decide, by decide, ?_⟩
  exact ensure_scaled_single_flight 1 1 2 schedC1 (by decide) (by decide) (by decide)

end Faas
